import Mathlib

/-!
# Shop API (lecture4): handlers over an abstract repository

Shallow embedding of `lecture4/internal/api/handlers.go` and `models.go`.

* The generated `repository` package is not part of the sources, so the
  handlers are embedded over a record `Queries σ` of storage operations on an
  arbitrary store type `σ`: reads are functions of the store, writes also
  return the next store.  Every theorem about a handler holds for every such
  record.
* A handler returns an `Outcome`: the HTTP response, the storage calls it
  issued (in order) and the final store.
* `strconv.Atoi`, the `int32(x)` conversion, gin's `Param`/`Query`/
  `DefaultQuery` and the binding tags `required` and `gte=0` are embedded with
  their library semantics.  `strconv.ParseFloat` is only used as a
  success/failure test by the handlers and enters as a parameter.
* `float64` prices are carried as rationals: the handlers never compute with a
  price, the only operations on it are the comparisons made by the binding tags.
-/

namespace ShopApi

/-! ## strconv -/

/-- The two failure kinds of a `strconv.NumError`. -/
inductive NumError
  | ErrSyntax
  | ErrRange
  deriving DecidableEq, Repr

/-- Largest `uint64`, the `maxVal` of `ParseUint(s, 10, 0)` on a 64-bit target. -/
def maxUint64 : Nat := 2 ^ 64 - 1

/-- The loop of `strconv.ParseUint` for base 10: a byte that is not a decimal
digit is a syntax error (value 0), an overflow of `uint64` is a range error
(value `maxVal`) reported as soon as it happens. -/
def parseUintLoop : List Char → Nat → Nat × Option NumError
  | [], n => (n, none)
  | c :: cs, n =>
    if c.isDigit then
      if n ≥ maxUint64 / 10 + 1 then (maxUint64, some NumError.ErrRange)
      else
        let n1 := n * 10 + (c.toNat - 48)
        if n1 > maxUint64 then (maxUint64, some NumError.ErrRange)
        else parseUintLoop cs n1
    else (0, some NumError.ErrSyntax)

/-- `strconv.ParseUint(s, 10, 0)` on the characters of `s`. -/
def ParseUint (s : List Char) : Nat × Option NumError :=
  match s with
  | [] => (0, some NumError.ErrSyntax)
  | _ => parseUintLoop s 0

/-- `strconv.Atoi` on a 64-bit target: an optional sign followed by decimal
digits.  Go returns a value together with the error: 0 on a syntax error, the
nearest bound of `int` on a range error. -/
def Atoi (s : String) : Int × Option NumError :=
  match s.data with
  | [] => (0, some NumError.ErrSyntax)
  | c :: cs =>
    let neg : Bool := c == '-'
    let digits := if c == '+' || c == '-' then cs else c :: cs
    match ParseUint digits with
    | (_, some NumError.ErrSyntax) => (0, some NumError.ErrSyntax)
    | (un, _) =>
      if !neg && un ≥ 2 ^ 63 then ((2 : Int) ^ 63 - 1, some NumError.ErrRange)
      else if neg && un > 2 ^ 63 then (-(2 : Int) ^ 63, some NumError.ErrRange)
      else (if neg then -(un : Int) else (un : Int), none)

/-- The Go conversion `int32(x)` of an `int`: the low 32 bits, two's complement. -/
def int32 (n : Int) : Int := (n + 2 ^ 31) % 2 ^ 32 - 2 ^ 31

/-- The values an `int32` can hold. -/
def inInt32 (n : Int) : Prop := -(2 : Int) ^ 31 ≤ n ∧ n < (2 : Int) ^ 31

instance (n : Int) : Decidable (inInt32 n) := by
  unfold inInt32; exact inferInstance

/-! ## database/sql and lib/pq -/

/-- Price of an item (`float64` in the source). -/
abbrev Price := ℚ

/-- Errors a repository call can return: `sql.ErrNoRows`, a `*pq.Error` with its
SQLSTATE code, or anything else. -/
inductive DbError
  | ErrNoRows
  | pq (code : String) (msg : String)
  | other (msg : String)
  deriving DecidableEq, Repr

/-- The `err.Error()` text. -/
def DbError.Error : DbError → String
  | DbError.ErrNoRows => "sql: no rows in result set"
  | DbError.pq _ msg => "pq: " ++ msg
  | DbError.other msg => msg

/-- `sql.NullString`: `none` is `Valid = false`. -/
abbrev NullString := Option String

/-- `sql.NullInt32`: `none` is `Valid = false`. -/
abbrev NullInt32 := Option Int

/-! ## repository rows and parameters -/

/-- `repository.Item`. -/
structure Item where
  ID : Int
  Name : String
  Price : Price
  Deleted : Bool
  deriving DecidableEq, Repr

/-- `repository.GetCartItemsRow`. -/
structure GetCartItemsRow where
  ItemID : Int
  Name : String
  Quantity : Int
  Deleted : Bool
  deriving DecidableEq, Repr

/-- `repository.GetCartItemsForCartsRow`. -/
structure GetCartItemsForCartsRow where
  CartID : Int
  ItemID : Int
  Name : String
  Quantity : Int
  Deleted : Bool
  deriving DecidableEq, Repr

/-- `repository.Cart`. -/
structure Cart where
  ID : Int
  deriving DecidableEq, Repr

/-- `repository.GetAllCartsWithStatsRow` (the fields the handler reads). -/
structure GetAllCartsWithStatsRow where
  ID : Int
  TotalPrice : Price
  deriving DecidableEq, Repr

structure CreateItemParams where
  Name : String
  Price : Price
  deriving DecidableEq, Repr

structure UpdateItemParams where
  ID : Int
  Name : String
  Price : Price
  deriving DecidableEq, Repr

structure PatchItemBothParams where
  ID : Int
  Name : String
  Price : Price
  deriving DecidableEq, Repr

structure PatchItemNameParams where
  ID : Int
  Name : String
  deriving DecidableEq, Repr

structure PatchItemPriceParams where
  ID : Int
  Price : Price
  deriving DecidableEq, Repr

structure GetItemsParams where
  Limit : Int
  Offset : Int
  ShowDeleted : Bool
  MinPrice : NullString
  MaxPrice : NullString
  deriving DecidableEq, Repr

structure GetAllCartsWithStatsParams where
  Limit : Int
  Offset : Int
  MinPrice : NullString
  MaxPrice : NullString
  MinQuantity : NullInt32
  MaxQuantity : NullInt32
  deriving DecidableEq, Repr

structure AddItemToCartParams where
  CartID : Int
  ItemID : Int
  deriving DecidableEq, Repr

/-- The storage operations of `repository.Queries` used by the handlers, over a
store `σ`.  Reads are functions of the store; writes return the next store. -/
structure Queries (σ : Type) where
  CreateItem : σ → CreateItemParams → Except DbError Item × σ
  GetItem : σ → Int → Except DbError Item
  GetItems : σ → GetItemsParams → Except DbError (List Item)
  UpdateItem : σ → UpdateItemParams → Except DbError Item × σ
  PatchItemBoth : σ → PatchItemBothParams → Except DbError Item × σ
  PatchItemName : σ → PatchItemNameParams → Except DbError Item × σ
  PatchItemPrice : σ → PatchItemPriceParams → Except DbError Item × σ
  DeleteItem : σ → Int → Option DbError × σ
  CreateCart : σ → Except DbError Cart × σ
  GetCart : σ → Int → Except DbError Cart
  GetCartItems : σ → Int → Except DbError (List GetCartItemsRow)
  GetCartTotalPrice : σ → Int → Except DbError Price
  GetAllCartsWithStats : σ → GetAllCartsWithStatsParams →
    Except DbError (List GetAllCartsWithStatsRow)
  GetCartItemsForCarts : σ → List Int → Except DbError (List GetCartItemsForCartsRow)
  AddItemToCart : σ → AddItemToCartParams → Option DbError × σ

/-- One storage call issued by a handler, with its arguments. -/
inductive Call
  | CreateItem (p : CreateItemParams)
  | GetItem (id : Int)
  | GetItems (p : GetItemsParams)
  | UpdateItem (p : UpdateItemParams)
  | PatchItemBoth (p : PatchItemBothParams)
  | PatchItemName (p : PatchItemNameParams)
  | PatchItemPrice (p : PatchItemPriceParams)
  | DeleteItem (id : Int)
  | CreateCart
  | GetCart (id : Int)
  | GetCartItems (id : Int)
  | GetCartTotalPrice (id : Int)
  | GetAllCartsWithStats (p : GetAllCartsWithStatsParams)
  | GetCartItemsForCarts (ids : List Int)
  | AddItemToCart (p : AddItemToCartParams)
  deriving DecidableEq, Repr

/-- A call that can change the store. -/
def Call.isWrite : Call → Bool
  | Call.CreateItem _ => true
  | Call.UpdateItem _ => true
  | Call.PatchItemBoth _ => true
  | Call.PatchItemName _ => true
  | Call.PatchItemPrice _ => true
  | Call.DeleteItem _ => true
  | Call.CreateCart => true
  | Call.AddItemToCart _ => true
  | _ => false

/-! ## models.go -/

/-- `ItemRequest`. -/
structure ItemRequest where
  Name : String
  Price : Price
  deriving DecidableEq, Repr

/-- `PatchItemRequest`: a nil pointer is `none`. -/
structure PatchItemRequest where
  Name : Option String
  Price : Option Price
  deriving DecidableEq, Repr

/-- `ItemResponse`. -/
structure ItemResponse where
  ID : Int
  Name : String
  Price : Price
  Deleted : Bool
  deriving DecidableEq, Repr

/-- `CartItemResponse`. -/
structure CartItemResponse where
  ID : Int
  Name : String
  Quantity : Int
  Available : Bool
  deriving DecidableEq, Repr

/-- `CartResponse`. -/
structure CartResponse where
  ID : Int
  Items : List CartItemResponse
  Price : Price
  deriving DecidableEq, Repr

/-! ## gin -/

/-- The request body as the JSON decoder sees it: undecodable, or an object
whose `name` and `price` members may each be missing. -/
inductive JsonBody
  | invalid (err : String)
  | object (name : Option String) (price : Option Price)
  deriving DecidableEq, Repr

/-- What a handler reads of a `gin.Context`. -/
structure Context where
  params : List (String × String)
  query : List (String × String)
  body : JsonBody
  deriving DecidableEq, Repr

/-- `c.Param(key)`: the path parameter, the empty string when there is none. -/
def Context.Param (c : Context) (key : String) : String :=
  (c.params.lookup key).getD ""

/-- `c.Query(key)`: the first value of the key, the empty string when absent. -/
def Context.Query (c : Context) (key : String) : String :=
  (c.query.lookup key).getD ""

/-- `c.DefaultQuery(key, d)`: the first value of the key, `d` when absent. -/
def Context.DefaultQuery (c : Context) (key d : String) : String :=
  (c.query.lookup key).getD d

/-- The body written by `c.JSON` (or nothing, for `c.Status`). -/
inductive Body
  | empty
  | error (message : String)
  | item (r : ItemResponse)
  | items (rs : List ItemResponse)
  | cartId (id : Int)
  | cart (r : CartResponse)
  | carts (rs : List CartResponse)
  deriving DecidableEq, Repr

/-- The HTTP response of a handler. -/
structure Response where
  status : Nat
  body : Body
  location : Option String
  deriving DecidableEq, Repr

/-- `c.JSON(status, body)` with no extra header. -/
def JSON (status : Nat) (body : Body) : Response := ⟨status, body, none⟩

/-- `c.JSON(status, ErrorResponse{Message: msg})`. -/
def jsonError (status : Nat) (msg : String) : Response := ⟨status, Body.error msg, none⟩

def StatusOK : Nat := 200
def StatusCreated : Nat := 201
def StatusNotModified : Nat := 304
def StatusBadRequest : Nat := 400
def StatusNotFound : Nat := 404
def StatusInternalServerError : Nat := 500

/-- What running a handler produces: the response, the storage calls issued in
order, and the store afterwards. -/
structure Outcome (σ : Type) where
  resp : Response
  calls : List Call
  store : σ

/-! ### binding -/

/-- The tag `required` on a string field: not the zero value. -/
def requiredString (s : String) : Bool := s != ""

/-- The tag `required` on a `float64` field: not the zero value. -/
def requiredFloat (x : Price) : Bool := x != 0

/-- The tag `gte=0` on a `float64` field. -/
def gte0 (x : Price) : Bool := decide (0 ≤ x)

/-- Validation of the binding tags of `ItemRequest`:
`Name: required`, `Price: required,gte=0`.  Returns the failed (field, tag)
pairs, one per field, the first failing tag of each. -/
def ItemRequest.validate (r : ItemRequest) : List (String × String) :=
  (if requiredString r.Name then [] else [("Name", "required")]) ++
  (if requiredFloat r.Price then
    (if gte0 r.Price then [] else [("Price", "gte")])
   else [("Price", "required")])

/-- The text of a failed validation. -/
def validationMessage (errs : List (String × String)) : String :=
  "\n".intercalate (errs.map fun e =>
    "Key: 'ItemRequest." ++ e.1 ++ "' Error:Field validation for '" ++ e.1 ++
      "' failed on the '" ++ e.2 ++ "' tag")

/-- `c.ShouldBindJSON(&req)` for `ItemRequest`: decode (a missing member leaves
the zero value), then validate the tags. -/
def bindItemRequest : JsonBody → Except String ItemRequest
  | JsonBody.invalid err => Except.error err
  | JsonBody.object name price =>
    let req : ItemRequest := ⟨name.getD "", price.getD 0⟩
    match req.validate with
    | [] => Except.ok req
    | errs => Except.error (validationMessage errs)

/-- `c.ShouldBindJSON(&req)` for `PatchItemRequest`: no tags to validate, a
missing member leaves the nil pointer. -/
def bindPatchItemRequest : JsonBody → Except String PatchItemRequest
  | JsonBody.invalid err => Except.error err
  | JsonBody.object name price => Except.ok ⟨name, price⟩

/-! ## handlers.go -/

/-- `itemToResponse`. -/
def itemToResponse (item : Item) : ItemResponse :=
  ⟨item.ID, item.Name, item.Price, item.Deleted⟩

/-- `cartItemsToResponse`: the loop appends one line per row to an empty result. -/
def cartItemsToResponse (items : List GetCartItemsRow) : List CartItemResponse :=
  items.foldl
    (fun result ci => result ++ [⟨ci.ItemID, ci.Name, ci.Quantity, !ci.Deleted⟩]) []

/-- `cartItemsForCartsToResponse`: the loop appends one line per row to an empty
result. -/
def cartItemsForCartsToResponse (items : List GetCartItemsForCartsRow) :
    List CartItemResponse :=
  items.foldl
    (fun result ci => result ++ [⟨ci.ItemID, ci.Name, ci.Quantity, !ci.Deleted⟩]) []

/-- `buildCartResponse`: the two reads it issues and its result. -/
def buildCartResponse {σ : Type} (h : Queries σ) (s : σ) (cartID : Int) :
    List Call × Except DbError CartResponse :=
  match h.GetCartItems s cartID with
  | Except.error err => ([Call.GetCartItems cartID], Except.error err)
  | Except.ok cartItems =>
    match h.GetCartTotalPrice s cartID with
    | Except.error err =>
      ([Call.GetCartItems cartID, Call.GetCartTotalPrice cartID], Except.error err)
    | Except.ok totalPrice =>
      ([Call.GetCartItems cartID, Call.GetCartTotalPrice cartID],
        Except.ok ⟨cartID, cartItemsToResponse cartItems, totalPrice⟩)

/-- `strconv.Itoa` of an id, for the `Location` header. -/
def Itoa (n : Int) : String := toString n

/-- Handler `PostItem`. -/
def PostItem {σ : Type} (h : Queries σ) (s : σ) (c : Context) : Outcome σ :=
  match bindItemRequest c.body with
  | Except.error err => ⟨jsonError StatusBadRequest err, [], s⟩
  | Except.ok req =>
    match h.CreateItem s ⟨req.Name, req.Price⟩ with
    | (Except.error err, s1) =>
      ⟨jsonError StatusInternalServerError err.Error, [Call.CreateItem ⟨req.Name, req.Price⟩], s1⟩
    | (Except.ok item, s1) =>
      ⟨⟨StatusCreated, Body.item (itemToResponse item), some ("/item/" ++ Itoa item.ID)⟩,
        [Call.CreateItem ⟨req.Name, req.Price⟩], s1⟩

/-- Handler `GetItemByID`. -/
def GetItemByID {σ : Type} (h : Queries σ) (s : σ) (c : Context) : Outcome σ :=
  match Atoi (c.Param "id") with
  | (_, some _) => ⟨jsonError StatusBadRequest "Invalid item ID", [], s⟩
  | (id, none) =>
    match h.GetItem s (int32 id) with
    | Except.error err =>
      if err = DbError.ErrNoRows then
        ⟨jsonError StatusNotFound ("Item with id=" ++ c.Param "id" ++ " not found"),
          [Call.GetItem (int32 id)], s⟩
      else
        ⟨jsonError StatusInternalServerError err.Error, [Call.GetItem (int32 id)], s⟩
    | Except.ok item =>
      if item.Deleted then
        ⟨jsonError StatusNotFound ("Item with id=" ++ c.Param "id" ++ " not found"),
          [Call.GetItem (int32 id)], s⟩
      else
        ⟨JSON StatusOK (Body.item (itemToResponse item)), [Call.GetItem (int32 id)], s⟩

/-- The optional price filter of `GetItems` and `GetCarts`: present, carrying the
query text itself, when the text is not empty and `strconv.ParseFloat` accepts
it (`parseFloatOk`). -/
def priceFilter (parseFloatOk : String → Bool) (str : String) : NullString :=
  if str != "" then
    if parseFloatOk str then some str else none
  else none

/-- The optional quantity filter of `GetCarts`: present, carrying `int32(val)`,
when the text is not empty and `strconv.Atoi` accepts it. -/
def quantityFilter (str : String) : NullInt32 :=
  if str != "" then
    match Atoi str with
    | (val, none) => some (int32 val)
    | (_, some _) => none
  else none

/-- The `repository.GetItemsParams` that `GetItems` builds from the query. -/
def getItemsParams (parseFloatOk : String → Bool) (c : Context) : GetItemsParams :=
  let offset := (Atoi (c.DefaultQuery "offset" "0")).1
  let limit := (Atoi (c.DefaultQuery "limit" "10")).1
  let showDeleted : Bool := c.DefaultQuery "show_deleted" "false" == "true"
  let minPrice := priceFilter parseFloatOk (c.Query "min_price")
  let maxPrice := priceFilter parseFloatOk (c.Query "max_price")
  ⟨int32 limit, int32 offset, showDeleted, minPrice, maxPrice⟩

/-- Handler `GetItems`. -/
def GetItems {σ : Type} (parseFloatOk : String → Bool) (h : Queries σ) (s : σ)
    (c : Context) : Outcome σ :=
  let p := getItemsParams parseFloatOk c
  match h.GetItems s p with
  | Except.error err => ⟨jsonError StatusInternalServerError err.Error, [Call.GetItems p], s⟩
  | Except.ok items =>
    ⟨JSON StatusOK (Body.items (items.foldl (fun result item => result ++ [itemToResponse item]) [])),
      [Call.GetItems p], s⟩

/-- Handler `PutItem`. -/
def PutItem {σ : Type} (h : Queries σ) (s : σ) (c : Context) : Outcome σ :=
  match Atoi (c.Param "id") with
  | (_, some _) => ⟨jsonError StatusBadRequest "Invalid item ID", [], s⟩
  | (id, none) =>
    match bindItemRequest c.body with
    | Except.error err => ⟨jsonError StatusBadRequest err, [], s⟩
    | Except.ok req =>
      match h.GetItem s (int32 id) with
      | Except.error err =>
        if err = DbError.ErrNoRows then
          ⟨jsonError StatusNotModified ("Item with id=" ++ c.Param "id" ++ " not found"),
            [Call.GetItem (int32 id)], s⟩
        else
          ⟨jsonError StatusInternalServerError err.Error, [Call.GetItem (int32 id)], s⟩
      | Except.ok existingItem =>
        if existingItem.Deleted then
          ⟨jsonError StatusNotModified ("Item with id=" ++ c.Param "id" ++ " not found"),
            [Call.GetItem (int32 id)], s⟩
        else
          match h.UpdateItem s ⟨int32 id, req.Name, req.Price⟩ with
          | (Except.error err, s1) =>
            ⟨jsonError StatusInternalServerError err.Error,
              [Call.GetItem (int32 id), Call.UpdateItem ⟨int32 id, req.Name, req.Price⟩], s1⟩
          | (Except.ok item, s1) =>
            ⟨JSON StatusOK (Body.item (itemToResponse item)),
              [Call.GetItem (int32 id), Call.UpdateItem ⟨int32 id, req.Name, req.Price⟩], s1⟩

/-- The common tail of the three writing branches of `PatchItem`. -/
def patchResult {σ : Type} (c : Context) (call : Call) (r : Except DbError Item × σ) :
    Outcome σ :=
  match r with
  | (Except.error err, s1) =>
    if err = DbError.ErrNoRows then
      ⟨jsonError StatusNotModified
        ("Item with id=" ++ c.Param "id" ++ " not found or is deleted"), [call], s1⟩
    else
      ⟨jsonError StatusInternalServerError err.Error, [call], s1⟩
  | (Except.ok item, s1) => ⟨JSON StatusOK (Body.item (itemToResponse item)), [call], s1⟩

/-- Handler `PatchItem`. -/
def PatchItem {σ : Type} (h : Queries σ) (s : σ) (c : Context) : Outcome σ :=
  match Atoi (c.Param "id") with
  | (_, some _) => ⟨jsonError StatusBadRequest "Invalid item ID", [], s⟩
  | (id, none) =>
    match bindPatchItemRequest c.body with
    | Except.error err => ⟨jsonError StatusBadRequest err, [], s⟩
    | Except.ok req =>
      match req.Name, req.Price with
      | some name, some price =>
        patchResult c (Call.PatchItemBoth ⟨int32 id, name, price⟩)
          (h.PatchItemBoth s ⟨int32 id, name, price⟩)
      | some name, none =>
        patchResult c (Call.PatchItemName ⟨int32 id, name⟩)
          (h.PatchItemName s ⟨int32 id, name⟩)
      | none, some price =>
        patchResult c (Call.PatchItemPrice ⟨int32 id, price⟩)
          (h.PatchItemPrice s ⟨int32 id, price⟩)
      | none, none =>
        match h.GetItem s (int32 id) with
        | Except.error err =>
          if err = DbError.ErrNoRows then
            ⟨jsonError StatusNotModified
              ("Item with id=" ++ c.Param "id" ++ " not found or is deleted"),
              [Call.GetItem (int32 id)], s⟩
          else
            ⟨jsonError StatusInternalServerError err.Error, [Call.GetItem (int32 id)], s⟩
        | Except.ok existingItem =>
          if existingItem.Deleted then
            ⟨jsonError StatusNotModified
              ("Item with id=" ++ c.Param "id" ++ " not found or is deleted"),
              [Call.GetItem (int32 id)], s⟩
          else
            ⟨JSON StatusOK (Body.item (itemToResponse existingItem)),
              [Call.GetItem (int32 id)], s⟩

/-- Handler `DeleteItem`. -/
def DeleteItem {σ : Type} (h : Queries σ) (s : σ) (c : Context) : Outcome σ :=
  match Atoi (c.Param "id") with
  | (_, some _) => ⟨jsonError StatusBadRequest "Invalid item ID", [], s⟩
  | (id, none) =>
    match h.DeleteItem s (int32 id) with
    | (some err, s1) =>
      ⟨jsonError StatusInternalServerError err.Error, [Call.DeleteItem (int32 id)], s1⟩
    | (none, s1) => ⟨⟨StatusOK, Body.empty, none⟩, [Call.DeleteItem (int32 id)], s1⟩

/-- Handler `PostCart`. -/
def PostCart {σ : Type} (h : Queries σ) (s : σ) (_c : Context) : Outcome σ :=
  match h.CreateCart s with
  | (Except.error err, s1) =>
    ⟨jsonError StatusInternalServerError err.Error, [Call.CreateCart], s1⟩
  | (Except.ok cart, s1) =>
    ⟨⟨StatusCreated, Body.cartId cart.ID, some ("/cart/" ++ Itoa cart.ID)⟩,
      [Call.CreateCart], s1⟩

/-- Handler `GetCartByID`. -/
def GetCartByID {σ : Type} (h : Queries σ) (s : σ) (c : Context) : Outcome σ :=
  match Atoi (c.Param "id") with
  | (_, some _) => ⟨jsonError StatusBadRequest "Invalid cart ID", [], s⟩
  | (id, none) =>
    match h.GetCart s (int32 id) with
    | Except.error err =>
      if err = DbError.ErrNoRows then
        ⟨jsonError StatusNotFound ("Cart with id=" ++ c.Param "id" ++ " not found"),
          [Call.GetCart (int32 id)], s⟩
      else
        ⟨jsonError StatusInternalServerError err.Error, [Call.GetCart (int32 id)], s⟩
    | Except.ok cart =>
      match buildCartResponse h s cart.ID with
      | (calls, Except.error err) =>
        ⟨jsonError StatusInternalServerError err.Error, Call.GetCart (int32 id) :: calls, s⟩
      | (calls, Except.ok cartResponse) =>
        ⟨JSON StatusOK (Body.cart cartResponse), Call.GetCart (int32 id) :: calls, s⟩

/-- The `repository.GetAllCartsWithStatsParams` that `GetCarts` builds from the
query. -/
def getCartsParams (parseFloatOk : String → Bool) (c : Context) :
    GetAllCartsWithStatsParams :=
  let offset := (Atoi (c.DefaultQuery "offset" "0")).1
  let limit := (Atoi (c.DefaultQuery "limit" "10")).1
  let minPrice := priceFilter parseFloatOk (c.Query "min_price")
  let maxPrice := priceFilter parseFloatOk (c.Query "max_price")
  let minQuantity := quantityFilter (c.Query "min_quantity")
  let maxQuantity := quantityFilter (c.Query "max_quantity")
  ⟨int32 limit, int32 offset, minPrice, maxPrice, minQuantity, maxQuantity⟩

/-- The map `cartItemsMap` of `GetCarts`: every fetched row is appended to the
entry of its cart id; a key never written reads as the nil slice. -/
def groupByCart (allCartItems : List GetCartItemsForCartsRow) :
    Int → List GetCartItemsForCartsRow :=
  allCartItems.foldl
    (fun m ci => Function.update m ci.CartID (m ci.CartID ++ [ci])) (fun _ => [])

/-- The result loop of `GetCarts`: one `CartResponse` per cart, appended in the
carts' order, with the grouped rows of its id. -/
def buildCartViews (carts : List GetAllCartsWithStatsRow)
    (allCartItems : List GetCartItemsForCartsRow) : List CartResponse :=
  carts.foldl
    (fun result cart =>
      result ++ [⟨cart.ID, cartItemsForCartsToResponse (groupByCart allCartItems cart.ID),
        cart.TotalPrice⟩]) []

/-- Handler `GetCarts`. -/
def GetCarts {σ : Type} (parseFloatOk : String → Bool) (h : Queries σ) (s : σ)
    (c : Context) : Outcome σ :=
  let p := getCartsParams parseFloatOk c
  match h.GetAllCartsWithStats s p with
  | Except.error err =>
    ⟨jsonError StatusInternalServerError err.Error, [Call.GetAllCartsWithStats p], s⟩
  | Except.ok carts =>
    let cartIDs := carts.map fun cart => cart.ID
    if cartIDs.length > 0 then
      match h.GetCartItemsForCarts s cartIDs with
      | Except.error err =>
        ⟨jsonError StatusInternalServerError err.Error,
          [Call.GetAllCartsWithStats p, Call.GetCartItemsForCarts cartIDs], s⟩
      | Except.ok allCartItems =>
        ⟨JSON StatusOK (Body.carts (buildCartViews carts allCartItems)),
          [Call.GetAllCartsWithStats p, Call.GetCartItemsForCarts cartIDs], s⟩
    else
      ⟨JSON StatusOK (Body.carts (buildCartViews carts [])),
        [Call.GetAllCartsWithStats p], s⟩

/-- The combined message of `AddItemToCart` for a missing cart or item. -/
def cartOrItemNotFound (c : Context) : String :=
  "Cart with id=" ++ c.Param "cart_id" ++ " or item with id=" ++ c.Param "item_id" ++
    " not found"

/-- Handler `AddItemToCart`. -/
def AddItemToCart {σ : Type} (h : Queries σ) (s : σ) (c : Context) : Outcome σ :=
  match Atoi (c.Param "cart_id") with
  | (_, some _) => ⟨jsonError StatusBadRequest "Invalid cart ID", [], s⟩
  | (cartID, none) =>
    match Atoi (c.Param "item_id") with
    | (_, some _) => ⟨jsonError StatusBadRequest "Invalid item ID", [], s⟩
    | (itemID, none) =>
      match h.GetCart s (int32 cartID) with
      | Except.error err =>
        if err = DbError.ErrNoRows then
          ⟨jsonError StatusNotFound (cartOrItemNotFound c), [Call.GetCart (int32 cartID)], s⟩
        else
          ⟨jsonError StatusInternalServerError err.Error, [Call.GetCart (int32 cartID)], s⟩
      | Except.ok _ =>
        match h.GetItem s (int32 itemID) with
        | Except.error err =>
          if err = DbError.ErrNoRows then
            ⟨jsonError StatusNotFound (cartOrItemNotFound c),
              [Call.GetCart (int32 cartID), Call.GetItem (int32 itemID)], s⟩
          else
            ⟨jsonError StatusInternalServerError err.Error,
              [Call.GetCart (int32 cartID), Call.GetItem (int32 itemID)], s⟩
        | Except.ok _ =>
          match h.AddItemToCart s ⟨int32 cartID, int32 itemID⟩ with
          | (some err, s1) =>
            match err with
            | DbError.pq code _ =>
              if code = "23503" then
                ⟨jsonError StatusNotFound (cartOrItemNotFound c),
                  [Call.GetCart (int32 cartID), Call.GetItem (int32 itemID),
                    Call.AddItemToCart ⟨int32 cartID, int32 itemID⟩], s1⟩
              else
                ⟨jsonError StatusInternalServerError err.Error,
                  [Call.GetCart (int32 cartID), Call.GetItem (int32 itemID),
                    Call.AddItemToCart ⟨int32 cartID, int32 itemID⟩], s1⟩
            | _ =>
              ⟨jsonError StatusInternalServerError err.Error,
                [Call.GetCart (int32 cartID), Call.GetItem (int32 itemID),
                  Call.AddItemToCart ⟨int32 cartID, int32 itemID⟩], s1⟩
          | (none, s1) =>
            match buildCartResponse h s1 (int32 cartID) with
            | (calls, Except.error err) =>
              ⟨jsonError StatusInternalServerError err.Error,
                [Call.GetCart (int32 cartID), Call.GetItem (int32 itemID),
                  Call.AddItemToCart ⟨int32 cartID, int32 itemID⟩] ++ calls, s1⟩
            | (calls, Except.ok cartResponse) =>
              ⟨JSON StatusOK (Body.cart cartResponse),
                [Call.GetCart (int32 cartID), Call.GetItem (int32 itemID),
                  Call.AddItemToCart ⟨int32 cartID, int32 itemID⟩] ++ calls, s1⟩

/-! ## An in-memory repository

The handlers above are stated over any `Queries σ`.  The store below gives one
concrete repository to run them on. -/

/-- One cart-item association. -/
structure CartItem where
  CartID : Int
  ItemID : Int
  Quantity : Int
  deriving DecidableEq, Repr

/-- The tables of the shop. -/
structure Store where
  items : List Item
  carts : List Cart
  cartItems : List CartItem
  deriving DecidableEq, Repr

/-- First row of the items table with the given id. -/
def Store.findItem (s : Store) (id : Int) : Option Item :=
  s.items.find? fun it => it.ID == id

/-- Rewrite the live (not deleted) row of the given id. -/
def Store.modifyLive (s : Store) (id : Int) (f : Item → Item) : Except DbError Item × Store :=
  match s.findItem id with
  | some it =>
    if it.Deleted then (Except.error DbError.ErrNoRows, s)
    else
      (Except.ok (f it),
        ⟨s.items.map (fun x => if x.ID == id then f x else x), s.carts, s.cartItems⟩)
  | none => (Except.error DbError.ErrNoRows, s)

/-- Next free id of a table. -/
def nextID (ids : List Int) : Int := ids.foldl max 0 + 1

/-- Joined rows of one cart, in insertion order; a line whose item is gone is
not joined. -/
def Store.cartRows (s : Store) (cartID : Int) : List GetCartItemsForCartsRow :=
  (s.cartItems.filter fun l => l.CartID == cartID).filterMap fun l =>
    (s.findItem l.ItemID).map fun it => ⟨l.CartID, l.ItemID, it.Name, l.Quantity, it.Deleted⟩

/-- Total price of a cart: the sum of price times quantity over its lines. -/
def Store.totalPrice (s : Store) (cartID : Int) : Price :=
  ((s.cartItems.filter fun l => l.CartID == cartID).map fun l =>
    match s.findItem l.ItemID with
    | some it => it.Price * (l.Quantity : ℚ)
    | none => 0).sum

/-- Total quantity of a cart: the sum of the quantities of its lines. -/
def Store.totalQuantity (s : Store) (cartID : Int) : Int :=
  ((s.cartItems.filter fun l => l.CartID == cartID).map fun l => l.Quantity).sum

/-- An absent bound holds; a present one is compared with `cmp`. -/
def boundHolds {α : Type} (b : Option α) (cmp : α → Bool) : Bool :=
  match b with
  | none => true
  | some v => cmp v

/-- Modelled from the spec: the generated `repository` queries, which are not in
the sources, over the in-memory `Store` (sections 3 and 4 of the spec: ids
assigned on creation, soft delete, `get` by id, replace and patch of live
items, add-to-cart as an upsert that increments the quantity and requires both
ends to exist, listings with inclusive optional bounds, offset and limit).
`parsePrice` reads the text of a price bound. -/
def memQueries (parsePrice : String → Option Price) : Queries Store where
  CreateItem s p :=
    let it : Item := ⟨nextID (s.items.map fun x => x.ID), p.Name, p.Price, false⟩
    (Except.ok it, ⟨s.items ++ [it], s.carts, s.cartItems⟩)
  GetItem s id :=
    match s.findItem id with
    | some it => Except.ok it
    | none => Except.error DbError.ErrNoRows
  GetItems s p :=
    Except.ok
      (((s.items.filter fun it =>
          (p.ShowDeleted || !it.Deleted) &&
          boundHolds (p.MinPrice.bind parsePrice) (fun b => decide (b ≤ it.Price)) &&
          boundHolds (p.MaxPrice.bind parsePrice) (fun b => decide (it.Price ≤ b))).drop
        p.Offset.toNat).take p.Limit.toNat)
  UpdateItem s p := s.modifyLive p.ID fun it => ⟨it.ID, p.Name, p.Price, it.Deleted⟩
  PatchItemBoth s p := s.modifyLive p.ID fun it => ⟨it.ID, p.Name, p.Price, it.Deleted⟩
  PatchItemName s p := s.modifyLive p.ID fun it => ⟨it.ID, p.Name, it.Price, it.Deleted⟩
  PatchItemPrice s p := s.modifyLive p.ID fun it => ⟨it.ID, it.Name, p.Price, it.Deleted⟩
  DeleteItem s id :=
    (none,
      ⟨s.items.map (fun x => if x.ID == id then ⟨x.ID, x.Name, x.Price, true⟩ else x),
        s.carts, s.cartItems⟩)
  CreateCart s :=
    let ct : Cart := ⟨nextID (s.carts.map fun x => x.ID)⟩
    (Except.ok ct, ⟨s.items, s.carts ++ [ct], s.cartItems⟩)
  GetCart s id :=
    match s.carts.find? fun ct => ct.ID == id with
    | some ct => Except.ok ct
    | none => Except.error DbError.ErrNoRows
  GetCartItems s id :=
    Except.ok ((s.cartRows id).map fun r => ⟨r.ItemID, r.Name, r.Quantity, r.Deleted⟩)
  GetCartTotalPrice s id := Except.ok (s.totalPrice id)
  GetAllCartsWithStats s p :=
    Except.ok
      ((((s.carts.filter fun ct =>
          boundHolds (p.MinPrice.bind parsePrice) (fun b => decide (b ≤ s.totalPrice ct.ID)) &&
          boundHolds (p.MaxPrice.bind parsePrice) (fun b => decide (s.totalPrice ct.ID ≤ b)) &&
          boundHolds p.MinQuantity (fun b => decide (b ≤ s.totalQuantity ct.ID)) &&
          boundHolds p.MaxQuantity (fun b => decide (s.totalQuantity ct.ID ≤ b))).drop
        p.Offset.toNat).take p.Limit.toNat).map fun ct => ⟨ct.ID, s.totalPrice ct.ID⟩)
  GetCartItemsForCarts s ids := Except.ok (ids.flatMap fun id => s.cartRows id)
  AddItemToCart s p :=
    if (s.carts.any fun ct => ct.ID == p.CartID) && (s.items.any fun it => it.ID == p.ItemID) then
      if s.cartItems.any fun l => l.CartID == p.CartID && l.ItemID == p.ItemID then
        (none,
          ⟨s.items, s.carts,
            s.cartItems.map fun l =>
              if l.CartID == p.CartID && l.ItemID == p.ItemID then
                ⟨l.CartID, l.ItemID, l.Quantity + 1⟩
              else l⟩)
      else (none, ⟨s.items, s.carts, s.cartItems ++ [⟨p.CartID, p.ItemID, 1⟩]⟩)
    else
      (some (DbError.pq "23503" "insert or update violates foreign key constraint"), s)

/-- A text of decimal digits, read as a price bound. -/
def parseDigits (str : String) : Option Price :=
  if str.data.all Char.isDigit && str != "" then
    some ((str.data.foldl (fun n ch => n * 10 + (ch.toNat - 48)) 0 : Nat) : ℚ)
  else none

/-- A sample store: two items, one of them soft-deleted, two carts, cart 1
holding two units of item 1 and one unit of the deleted item 2. -/
def sampleStore : Store :=
  ⟨[⟨1, "Milk", 10, false⟩, ⟨2, "Bread", 5, true⟩],
   [⟨1⟩, ⟨2⟩],
   [⟨1, 1, 2⟩, ⟨1, 2, 1⟩]⟩

/-! ## Sample inputs and specification-side views -/

/-- A `ParseFloat` success test that accepts texts of decimal digits. -/
def digitsOk (str : String) : Bool := (parseDigits str).isSome

/-- The in-memory repository with an association write that always reports a
foreign-key violation, as when a referenced row disappears between the
existence checks and the write. -/
def violatingQueries : Queries Store :=
  { memQueries parseDigits with
    AddItemToCart := fun s _ =>
      (some (DbError.pq "23503" "insert or update violates foreign key constraint"), s) }

/-- A context with the given path parameters, no query and an unreadable body. -/
def pathContext (params : List (String × String)) : Context :=
  ⟨params, [], JsonBody.invalid "EOF"⟩

/-- A context with the given path parameters and a JSON object as body. -/
def bodyContext (params : List (String × String)) (name : Option String)
    (price : Option Price) : Context :=
  ⟨params, [], JsonBody.object name price⟩

/-- A context with only a query string. -/
def queryContext (query : List (String × String)) : Context :=
  ⟨[], query, JsonBody.invalid "EOF"⟩

/-- The line view of one batched row: item id, name, quantity and
`available = NOT deleted`. -/
def lineView (ci : GetCartItemsForCartsRow) : CartItemResponse :=
  ⟨ci.ItemID, ci.Name, ci.Quantity, !ci.Deleted⟩

/-! ## Auxiliary facts -/

theorem int32_of_inInt32 {n : Int} (hn : inInt32 n) : int32 n = n := by
  unfold inInt32 at hn
  unfold int32
  omega

/-! ## Single-item lookup -/

/-- C1: for an item id (an `int32` value, given as a path text that `Atoi`
reads as that id), `GetItemByID` answers 200 with the row's id, name, price and
`deleted = false` exactly when the store has a row for the id that is not
deleted; with no row, or a soft-deleted row, it answers 404 with an error body
and no item.  The handler only reads. -/
theorem GetItemByID_found_iff_live_row {σ : Type} (h : Queries σ) (s : σ) (c : Context)
    (id : Int) (hparse : Atoi (c.Param "id") = (id, none)) (hid : inInt32 id) :
    (∀ item, h.GetItem s id = Except.ok item → item.Deleted = false →
        (GetItemByID h s c).resp =
          JSON StatusOK (Body.item ⟨item.ID, item.Name, item.Price, false⟩)) ∧
    (((GetItemByID h s c).resp.status = StatusOK ∨
        ∃ r, (GetItemByID h s c).resp.body = Body.item r) →
        ∃ item, h.GetItem s id = Except.ok item ∧ item.Deleted = false) ∧
    ((h.GetItem s id = Except.error DbError.ErrNoRows ∨
        ∃ item, h.GetItem s id = Except.ok item ∧ item.Deleted = true) →
        (GetItemByID h s c).resp =
          jsonError StatusNotFound ("Item with id=" ++ c.Param "id" ++ " not found")) ∧
    (GetItemByID h s c).calls = [Call.GetItem id] ∧
    (GetItemByID h s c).store = s := by
  unfold GetItemByID
  rw [hparse]
  simp only [int32_of_inInt32 hid]
  cases hg : h.GetItem s id with
  | error err =>
    by_cases he : err = DbError.ErrNoRows
    · subst he
      simp [jsonError, StatusNotFound, StatusOK]
    · simp [he, jsonError, StatusInternalServerError, StatusOK]
  | ok item =>
    cases hd : item.Deleted with
    | true => simp [hd, jsonError, StatusNotFound, StatusOK]
    | false => simp [hd, JSON, StatusOK, itemToResponse]

/-- On the sample store: item 1 is returned, the soft-deleted item 2 and the
absent item 7 are both 404. -/
theorem GetItemByID_found_iff_live_row_witness :
    (GetItemByID (memQueries parseDigits) sampleStore (pathContext [("id", "1")])).resp =
        JSON StatusOK (Body.item ⟨1, "Milk", 10, false⟩) ∧
    (GetItemByID (memQueries parseDigits) sampleStore (pathContext [("id", "2")])).resp =
        jsonError StatusNotFound "Item with id=2 not found" ∧
    (GetItemByID (memQueries parseDigits) sampleStore (pathContext [("id", "7")])).resp =
        jsonError StatusNotFound "Item with id=7 not found" :=
  ⟨(GetItemByID_found_iff_live_row (memQueries parseDigits) sampleStore
      (pathContext [("id", "1")]) 1 (by decide) (by decide)).1
      ⟨1, "Milk", 10, false⟩ rfl rfl,
   (GetItemByID_found_iff_live_row (memQueries parseDigits) sampleStore
      (pathContext [("id", "2")]) 2 (by decide) (by decide)).2.2.1
      (Or.inr ⟨⟨2, "Bread", 5, true⟩, rfl, rfl⟩),
   (GetItemByID_found_iff_live_row (memQueries parseDigits) sampleStore
      (pathContext [("id", "7")]) 7 (by decide) (by decide)).2.2.1
      (Or.inl rfl)⟩

/-! ## Replace and patch -/

/-- C2: for an item id (an `int32` value given as a path text that `Atoi` reads
as that id): when the store has no row for the id, or the row is soft-deleted,
`PutItem` issues no write at all (in particular no `UpdateItem`), leaves the
store as it was, and, for every body that binds to a name and price, answers
304 with the not-found message; when the row exists and is not deleted, the
one write issued is `UpdateItem` with exactly that id, name and price. -/
theorem PutItem_not_found_or_update {σ : Type} (h : Queries σ) (s : σ) (c : Context)
    (id : Int) (hparse : Atoi (c.Param "id") = (id, none)) (hid : inInt32 id) :
    ((h.GetItem s id = Except.error DbError.ErrNoRows ∨
        ∃ item, h.GetItem s id = Except.ok item ∧ item.Deleted = true) →
        (∀ call ∈ (PutItem h s c).calls, call.isWrite = false) ∧
        (∀ p, Call.UpdateItem p ∉ (PutItem h s c).calls) ∧
        (PutItem h s c).store = s ∧
        (∀ req, bindItemRequest c.body = Except.ok req →
          (PutItem h s c).resp =
            jsonError StatusNotModified ("Item with id=" ++ c.Param "id" ++ " not found") ∧
          (PutItem h s c).calls = [Call.GetItem id])) ∧
    (∀ item req, h.GetItem s id = Except.ok item → item.Deleted = false →
        bindItemRequest c.body = Except.ok req →
        (PutItem h s c).calls =
          [Call.GetItem id, Call.UpdateItem ⟨id, req.Name, req.Price⟩] ∧
        (PutItem h s c).store = (h.UpdateItem s ⟨id, req.Name, req.Price⟩).2) := by
  unfold PutItem
  rw [hparse]
  simp only [int32_of_inInt32 hid]
  cases hb : bindItemRequest c.body with
  | error e => simp [Call.isWrite]
  | ok req =>
    cases hg : h.GetItem s id with
    | error err =>
      by_cases he : err = DbError.ErrNoRows
      · subst he
        simp [Call.isWrite]
      · simp [he]
    | ok item =>
      cases hd : item.Deleted with
      | true => simp [hd, Call.isWrite]
      | false =>
        simp only [hd]
        rcases hu : h.UpdateItem s ⟨id, req.Name, req.Price⟩ with ⟨r, s1⟩
        cases r <;> simp [hd, hu]

/-- On the sample store: replacing the soft-deleted item 2 or the absent item 7
is answered 304 and the store is untouched; replacing item 1 writes the new
name and price. -/
theorem PutItem_not_found_or_update_witness :
    ((PutItem (memQueries parseDigits) sampleStore
          (bodyContext [("id", "2")] (some "Tea") (some 3))).resp =
        jsonError StatusNotModified "Item with id=2 not found" ∧
      (PutItem (memQueries parseDigits) sampleStore
          (bodyContext [("id", "2")] (some "Tea") (some 3))).store = sampleStore) ∧
    (PutItem (memQueries parseDigits) sampleStore
          (bodyContext [("id", "7")] (some "Tea") (some 3))).store = sampleStore ∧
    (PutItem (memQueries parseDigits) sampleStore
          (bodyContext [("id", "1")] (some "Tea") (some 3))).calls =
        [Call.GetItem 1, Call.UpdateItem ⟨1, "Tea", 3⟩] :=
  ⟨⟨((PutItem_not_found_or_update (memQueries parseDigits) sampleStore
        (bodyContext [("id", "2")] (some "Tea") (some 3)) 2 (by decide) (by decide)).1
        (Or.inr ⟨⟨2, "Bread", 5, true⟩, rfl, rfl⟩)).2.2.2 ⟨"Tea", 3⟩ (by rfl) |>.1,
    ((PutItem_not_found_or_update (memQueries parseDigits) sampleStore
        (bodyContext [("id", "2")] (some "Tea") (some 3)) 2 (by decide) (by decide)).1
        (Or.inr ⟨⟨2, "Bread", 5, true⟩, rfl, rfl⟩)).2.2.1⟩,
   ((PutItem_not_found_or_update (memQueries parseDigits) sampleStore
        (bodyContext [("id", "7")] (some "Tea") (some 3)) 7 (by decide) (by decide)).1
        (Or.inl rfl)).2.2.1,
   ((PutItem_not_found_or_update (memQueries parseDigits) sampleStore
        (bodyContext [("id", "1")] (some "Tea") (some 3)) 1 (by decide) (by decide)).2
        ⟨1, "Milk", 10, false⟩ ⟨"Tea", 3⟩ rfl rfl (by rfl)).1⟩

/-- C3: for an item id (an `int32` value given as a path text that `Atoi` reads
as that id), `PatchItem` issues exactly one storage call, chosen by the members
present in the body: only `price` gives `PatchItemPrice` with the id and the
price (its parameters have no name), only `name` gives `PatchItemName` with the
id and the name (no price), both give `PatchItemBoth` with both, and neither
gives no write at all: the handler reads the item, leaves the store as it was
and answers 200 with the current item, or 304 when the row is absent or
soft-deleted. -/
theorem PatchItem_passes_present_fields {σ : Type} (h : Queries σ) (s : σ) (c : Context)
    (id : Int) (hparse : Atoi (c.Param "id") = (id, none)) (hid : inInt32 id) :
    (∀ price, c.body = JsonBody.object none (some price) →
        (PatchItem h s c).calls = [Call.PatchItemPrice ⟨id, price⟩] ∧
        (PatchItem h s c).store = (h.PatchItemPrice s ⟨id, price⟩).2) ∧
    (∀ name, c.body = JsonBody.object (some name) none →
        (PatchItem h s c).calls = [Call.PatchItemName ⟨id, name⟩] ∧
        (PatchItem h s c).store = (h.PatchItemName s ⟨id, name⟩).2) ∧
    (∀ name price, c.body = JsonBody.object (some name) (some price) →
        (PatchItem h s c).calls = [Call.PatchItemBoth ⟨id, name, price⟩] ∧
        (PatchItem h s c).store = (h.PatchItemBoth s ⟨id, name, price⟩).2) ∧
    (c.body = JsonBody.object none none →
        (PatchItem h s c).calls = [Call.GetItem id] ∧
        (PatchItem h s c).store = s ∧
        (∀ item, h.GetItem s id = Except.ok item → item.Deleted = false →
          (PatchItem h s c).resp = JSON StatusOK (Body.item (itemToResponse item))) ∧
        ((h.GetItem s id = Except.error DbError.ErrNoRows ∨
            ∃ item, h.GetItem s id = Except.ok item ∧ item.Deleted = true) →
          (PatchItem h s c).resp =
            jsonError StatusNotModified
              ("Item with id=" ++ c.Param "id" ++ " not found or is deleted"))) := by
  unfold PatchItem
  rw [hparse]
  simp only [int32_of_inInt32 hid]
  refine ⟨?_, ?_, ?_, ?_⟩
  · intro price hb
    rw [hb]
    simp only [bindPatchItemRequest, patchResult]
    rcases h.PatchItemPrice s ⟨id, price⟩ with ⟨r, s1⟩
    cases r with
    | error err => by_cases he : err = DbError.ErrNoRows <;> simp [he]
    | ok item => simp
  · intro name hb
    rw [hb]
    simp only [bindPatchItemRequest, patchResult]
    rcases h.PatchItemName s ⟨id, name⟩ with ⟨r, s1⟩
    cases r with
    | error err => by_cases he : err = DbError.ErrNoRows <;> simp [he]
    | ok item => simp
  · intro name price hb
    rw [hb]
    simp only [bindPatchItemRequest, patchResult]
    rcases h.PatchItemBoth s ⟨id, name, price⟩ with ⟨r, s1⟩
    cases r with
    | error err => by_cases he : err = DbError.ErrNoRows <;> simp [he]
    | ok item => simp
  · intro hb
    rw [hb]
    simp only [bindPatchItemRequest]
    cases hg : h.GetItem s id with
    | error err =>
      by_cases he : err = DbError.ErrNoRows
      · subst he
        simp
      · simp [he]
    | ok item =>
      cases hd : item.Deleted with
      | true => simp [hd]
      | false => simp [hd]

/-- On the sample store, for item 1: a body with only a price writes only the
price, a body with only a name writes only the name, a body with both writes
both, and an empty body writes nothing and returns the item as stored. -/
theorem PatchItem_passes_present_fields_witness :
    (PatchItem (memQueries parseDigits) sampleStore
        (bodyContext [("id", "1")] none (some 3))).calls = [Call.PatchItemPrice ⟨1, 3⟩] ∧
    (PatchItem (memQueries parseDigits) sampleStore
        (bodyContext [("id", "1")] (some "Tea") none)).calls = [Call.PatchItemName ⟨1, "Tea"⟩] ∧
    (PatchItem (memQueries parseDigits) sampleStore
        (bodyContext [("id", "1")] (some "Tea") (some 3))).calls =
      [Call.PatchItemBoth ⟨1, "Tea", 3⟩] ∧
    (PatchItem (memQueries parseDigits) sampleStore
        (bodyContext [("id", "1")] none none)).store = sampleStore ∧
    (PatchItem (memQueries parseDigits) sampleStore
        (bodyContext [("id", "1")] none none)).resp =
      JSON StatusOK (Body.item ⟨1, "Milk", 10, false⟩) :=
  ⟨((PatchItem_passes_present_fields (memQueries parseDigits) sampleStore
      (bodyContext [("id", "1")] none (some 3)) 1 (by decide) (by decide)).1 3 rfl).1,
   ((PatchItem_passes_present_fields (memQueries parseDigits) sampleStore
      (bodyContext [("id", "1")] (some "Tea") none) 1 (by decide) (by decide)).2.1 "Tea" rfl).1,
   ((PatchItem_passes_present_fields (memQueries parseDigits) sampleStore
      (bodyContext [("id", "1")] (some "Tea") (some 3)) 1 (by decide) (by decide)).2.2.1
      "Tea" 3 rfl).1,
   ((PatchItem_passes_present_fields (memQueries parseDigits) sampleStore
      (bodyContext [("id", "1")] none none) 1 (by decide) (by decide)).2.2.2 rfl).2.1,
   ((PatchItem_passes_present_fields (memQueries parseDigits) sampleStore
      (bodyContext [("id", "1")] none none) 1 (by decide) (by decide)).2.2.2 rfl).2.2.1
      ⟨1, "Milk", 10, false⟩ rfl rfl⟩

/-! ## Adding an item to a cart -/

/-- C4: for cart and item ids (`int32` values given as path texts that `Atoi`
reads as those ids), `AddItemToCart` gives one and the same response, 404 with
the combined cart-or-item message, when the cart has no row, when the item has
no row, and when the association write fails with a `pq` error of code 23503;
in none of the three is the status 500. -/
theorem AddItemToCart_not_found_uniform {σ : Type} (h : Queries σ) (s : σ) (c : Context)
    (cartID itemID : Int)
    (hcart : Atoi (c.Param "cart_id") = (cartID, none))
    (hitem : Atoi (c.Param "item_id") = (itemID, none))
    (hcr : inInt32 cartID) (hir : inInt32 itemID) :
    ((h.GetCart s cartID = Except.error DbError.ErrNoRows ∨
      (∃ cart, h.GetCart s cartID = Except.ok cart) ∧
        h.GetItem s itemID = Except.error DbError.ErrNoRows ∨
      (∃ cart, h.GetCart s cartID = Except.ok cart) ∧
        (∃ item, h.GetItem s itemID = Except.ok item) ∧
        ∃ msg s1, h.AddItemToCart s ⟨cartID, itemID⟩ = (some (DbError.pq "23503" msg), s1)) →
      (AddItemToCart h s c).resp =
        jsonError StatusNotFound
          ("Cart with id=" ++ c.Param "cart_id" ++ " or item with id=" ++ c.Param "item_id" ++
            " not found") ∧
      (AddItemToCart h s c).resp.status ≠ StatusInternalServerError) := by
  unfold AddItemToCart
  rw [hcart, hitem]
  simp only [int32_of_inInt32 hcr, int32_of_inInt32 hir]
  rintro (hc | ⟨⟨cart, hc⟩, hi⟩ | ⟨⟨cart, hc⟩, ⟨item, hi⟩, msg, s1, hw⟩)
  · simp [hc, cartOrItemNotFound, jsonError, StatusNotFound, StatusInternalServerError]
  · simp [hc, hi, cartOrItemNotFound, jsonError, StatusNotFound, StatusInternalServerError]
  · simp [hc, hi, hw, cartOrItemNotFound, jsonError, StatusNotFound, StatusInternalServerError]

/-- On the sample store: the absent cart 9, the absent item 9, and a write that
reports a foreign-key violation are answered alike. -/
theorem AddItemToCart_not_found_uniform_witness :
    (AddItemToCart (memQueries parseDigits) sampleStore
        (pathContext [("cart_id", "9"), ("item_id", "1")])).resp =
      jsonError StatusNotFound "Cart with id=9 or item with id=1 not found" ∧
    (AddItemToCart (memQueries parseDigits) sampleStore
        (pathContext [("cart_id", "1"), ("item_id", "9")])).resp =
      jsonError StatusNotFound "Cart with id=1 or item with id=9 not found" ∧
    (AddItemToCart violatingQueries sampleStore
        (pathContext [("cart_id", "1"), ("item_id", "1")])).resp =
      jsonError StatusNotFound "Cart with id=1 or item with id=1 not found" :=
  ⟨((AddItemToCart_not_found_uniform (memQueries parseDigits) sampleStore
      (pathContext [("cart_id", "9"), ("item_id", "1")]) 9 1
      (by decide) (by decide) (by decide) (by decide)) (Or.inl rfl)).1,
   ((AddItemToCart_not_found_uniform (memQueries parseDigits) sampleStore
      (pathContext [("cart_id", "1"), ("item_id", "9")]) 1 9
      (by decide) (by decide) (by decide) (by decide))
      (Or.inr (Or.inl ⟨⟨⟨1⟩, rfl⟩, rfl⟩))).1,
   ((AddItemToCart_not_found_uniform violatingQueries sampleStore
      (pathContext [("cart_id", "1"), ("item_id", "1")]) 1 1
      (by decide) (by decide) (by decide) (by decide))
      (Or.inr (Or.inr ⟨⟨⟨1⟩, rfl⟩, ⟨⟨1, "Milk", 10, false⟩, rfl⟩,
        "insert or update violates foreign key constraint", sampleStore, rfl⟩))).1⟩

/-- C5: for an existing cart and an item that has a row (ids being `int32`
values given as path texts that `Atoi` reads as those ids), whatever the
`Deleted` flag of the row, `AddItemToCart` issues the association write for
exactly that cart and item right after the two existence reads, the store
afterwards is the one the write produced, and when the write and the reads of
the response succeed the answer is 200 with the cart. -/
theorem AddItemToCart_accepts_any_existing_item {σ : Type} (h : Queries σ) (s : σ)
    (c : Context) (cartID itemID : Int) (cart : Cart) (item : Item)
    (hcart : Atoi (c.Param "cart_id") = (cartID, none))
    (hitem : Atoi (c.Param "item_id") = (itemID, none))
    (hcr : inInt32 cartID) (hir : inInt32 itemID)
    (hc : h.GetCart s cartID = Except.ok cart)
    (hi : h.GetItem s itemID = Except.ok item) :
    (∃ rest, (AddItemToCart h s c).calls =
        [Call.GetCart cartID, Call.GetItem itemID, Call.AddItemToCart ⟨cartID, itemID⟩] ++
          rest) ∧
    (AddItemToCart h s c).store = (h.AddItemToCart s ⟨cartID, itemID⟩).2 ∧
    (∀ s1 reads r, h.AddItemToCart s ⟨cartID, itemID⟩ = (none, s1) →
        buildCartResponse h s1 cartID = (reads, Except.ok r) →
        (AddItemToCart h s c).resp = JSON StatusOK (Body.cart r)) := by
  unfold AddItemToCart
  rw [hcart, hitem]
  simp only [int32_of_inInt32 hcr, int32_of_inInt32 hir, hc, hi]
  rcases hw : h.AddItemToCart s ⟨cartID, itemID⟩ with ⟨e, s1⟩
  cases e with
  | some err =>
    cases err with
    | pq code msg => by_cases hcode : code = "23503" <;> simp [hcode]
    | ErrNoRows => simp
    | other msg => simp
  | none =>
    rcases hb : buildCartResponse h s1 cartID with ⟨reads, r⟩
    cases r with
    | error err =>
      simp only [hb]
      refine ⟨⟨reads, rfl⟩, trivial, ?_⟩
      intro s2 reads2 r2 hs hb2
      simp only [Prod.mk.injEq, true_and] at hs
      subst hs
      rw [hb] at hb2
      simp at hb2
    | ok r =>
      simp only [hb]
      refine ⟨⟨reads, rfl⟩, trivial, ?_⟩
      intro s2 reads2 r2 hs hb2
      simp only [Prod.mk.injEq, true_and] at hs
      subst hs
      rw [hb] at hb2
      simp only [Prod.mk.injEq, Except.ok.injEq] at hb2
      rw [hb2.2]

/-- On the sample store: the soft-deleted item 2 is added to cart 1 (its
quantity goes from 1 to 2) and the answer is 200. -/
theorem AddItemToCart_accepts_any_existing_item_witness :
    (AddItemToCart (memQueries parseDigits) sampleStore
        (pathContext [("cart_id", "1"), ("item_id", "2")])).resp =
      JSON StatusOK
        (Body.cart ⟨1, [⟨1, "Milk", 2, true⟩, ⟨2, "Bread", 2, false⟩], 30⟩) :=
  (AddItemToCart_accepts_any_existing_item (memQueries parseDigits) sampleStore
      (pathContext [("cart_id", "1"), ("item_id", "2")]) 1 2 ⟨1⟩ ⟨2, "Bread", 5, true⟩
      (by decide) (by decide) (by decide) (by decide) rfl rfl).2.2
    ⟨sampleStore.items, sampleStore.carts, [⟨1, 1, 2⟩, ⟨1, 2, 2⟩]⟩
    [Call.GetCartItems 1, Call.GetCartTotalPrice 1] _ rfl (by
      simp [buildCartResponse, memQueries, Store.cartRows, Store.totalPrice, Store.findItem,
        sampleStore, cartItemsToResponse]
      norm_num)

/-! ## Cart views -/

theorem foldl_append_singleton {α β : Type} (f : α → β) (xs : List α) (acc : List β) :
    xs.foldl (fun result x => result ++ [f x]) acc = acc ++ xs.map f := by
  induction xs generalizing acc with
  | nil => simp
  | cons x xs ih => simp [ih]

theorem cartItemsToResponse_eq_map (rows : List GetCartItemsRow) :
    cartItemsToResponse rows =
      rows.map fun ci => ⟨ci.ItemID, ci.Name, ci.Quantity, !ci.Deleted⟩ := by
  unfold cartItemsToResponse
  rw [foldl_append_singleton
    (fun ci : GetCartItemsRow => (⟨ci.ItemID, ci.Name, ci.Quantity, !ci.Deleted⟩ : CartItemResponse))]
  simp

theorem cartItemsForCartsToResponse_eq_map (rows : List GetCartItemsForCartsRow) :
    cartItemsForCartsToResponse rows = rows.map lineView := by
  unfold cartItemsForCartsToResponse
  exact (foldl_append_singleton lineView rows []).trans (by simp)

/-- C6: `cartItemsToResponse` and `cartItemsForCartsToResponse` return a list
as long as the rows, and wherever the rows have a row at index `i` the result
has at index `i` the line with that row's item id, name and quantity and with
`Available` the negation of the row's `Deleted`. -/
theorem cartItemsToResponse_pointwise (rows : List GetCartItemsRow)
    (batched : List GetCartItemsForCartsRow) :
    ((cartItemsToResponse rows).length = rows.length ∧
      ∀ (i : Nat) (row : GetCartItemsRow), rows[i]? = some row →
        (cartItemsToResponse rows)[i]? =
          some (⟨row.ItemID, row.Name, row.Quantity, !row.Deleted⟩ : CartItemResponse)) ∧
    ((cartItemsForCartsToResponse batched).length = batched.length ∧
      ∀ (i : Nat) (row : GetCartItemsForCartsRow), batched[i]? = some row →
        (cartItemsForCartsToResponse batched)[i]? =
          some (⟨row.ItemID, row.Name, row.Quantity, !row.Deleted⟩ : CartItemResponse)) := by
  rw [cartItemsToResponse_eq_map, cartItemsForCartsToResponse_eq_map]
  refine ⟨⟨by simp, ?_⟩, ⟨by simp, ?_⟩⟩
  · intro i row hrow
    simp [List.getElem?_map, hrow]
  · intro i row hrow
    simp [List.getElem?_map, hrow, lineView]

/-- Two rows, the second one of a deleted item: the second line of each result
is the second row with `Available = false`. -/
theorem cartItemsToResponse_pointwise_witness :
    (cartItemsToResponse [⟨1, "Milk", 2, false⟩, ⟨2, "Bread", 1, true⟩])[1]? =
      some ⟨2, "Bread", 1, false⟩ ∧
    (cartItemsForCartsToResponse [⟨7, 1, "Milk", 2, false⟩, ⟨7, 2, "Bread", 1, true⟩])[1]? =
      some ⟨2, "Bread", 1, false⟩ :=
  ⟨(cartItemsToResponse_pointwise [⟨1, "Milk", 2, false⟩, ⟨2, "Bread", 1, true⟩]
      [⟨7, 1, "Milk", 2, false⟩, ⟨7, 2, "Bread", 1, true⟩]).1.2 1 ⟨2, "Bread", 1, true⟩ rfl,
   (cartItemsToResponse_pointwise [⟨1, "Milk", 2, false⟩, ⟨2, "Bread", 1, true⟩]
      [⟨7, 1, "Milk", 2, false⟩, ⟨7, 2, "Bread", 1, true⟩]).2.2 1 ⟨7, 2, "Bread", 1, true⟩ rfl⟩

theorem foldl_group_apply (rows : List GetCartItemsForCartsRow)
    (m : Int → List GetCartItemsForCartsRow) (id : Int) :
    List.foldl
        (fun (acc : Int → List GetCartItemsForCartsRow) (ci : GetCartItemsForCartsRow) =>
          Function.update acc ci.CartID (acc ci.CartID ++ [ci])) m rows id =
      m id ++ rows.filter fun ci => ci.CartID == id := by
  induction rows generalizing m with
  | nil => simp
  | cons r rows ih =>
    rw [List.foldl_cons, ih]
    by_cases hr : r.CartID = id
    · subst hr
      simp [List.filter_cons]
    · have hne : id ≠ r.CartID := fun hh => hr hh.symm
      simp [List.filter_cons, hr, Function.update_noteq hne]

theorem groupByCart_eq_filter (rows : List GetCartItemsForCartsRow) (id : Int) :
    groupByCart rows id = rows.filter fun ci => ci.CartID == id := by
  unfold groupByCart
  rw [foldl_group_apply]
  simp

theorem buildCartViews_eq_map (carts : List GetAllCartsWithStatsRow)
    (rows : List GetCartItemsForCartsRow) :
    buildCartViews carts rows =
      carts.map fun cart =>
        ⟨cart.ID, (rows.filter fun ci => ci.CartID == cart.ID).map lineView,
          cart.TotalPrice⟩ := by
  unfold buildCartViews
  rw [foldl_append_singleton
    (fun cart : GetAllCartsWithStatsRow =>
      (⟨cart.ID, cartItemsForCartsToResponse (groupByCart rows cart.ID), cart.TotalPrice⟩ :
        CartResponse))]
  simp [cartItemsForCartsToResponse_eq_map, groupByCart_eq_filter]


/-- C7: for every list of carts returned by the filtered cart query and every
list of batched line rows, the views built by `GetCarts` are, cart by cart in
the carts' order, the cart's id, the line views of exactly the rows whose
`CartID` is that id, in the order the rows were fetched, and the cart's total
price; there is one view per cart, a cart with no row of its id gets the empty
item list, and when the two reads succeed (the batched read is skipped for an
empty list of carts) the handler answers 200 with these views. -/
theorem GetCarts_one_view_per_cart {σ : Type} (parseFloatOk : String → Bool)
    (h : Queries σ) (s : σ) (c : Context) (carts : List GetAllCartsWithStatsRow)
    (rows : List GetCartItemsForCartsRow) :
    buildCartViews carts rows =
      carts.map (fun cart =>
        (⟨cart.ID, (rows.filter fun ci => ci.CartID == cart.ID).map lineView,
          cart.TotalPrice⟩ : CartResponse)) ∧
    (buildCartViews carts rows).length = carts.length ∧
    (∀ cart ∈ carts, (∀ ci ∈ rows, ci.CartID ≠ cart.ID) →
      (⟨cart.ID, [], cart.TotalPrice⟩ : CartResponse) ∈ buildCartViews carts rows) ∧
    (h.GetAllCartsWithStats s (getCartsParams parseFloatOk c) = Except.ok carts →
      (carts = [] ∨
        h.GetCartItemsForCarts s (carts.map fun cart => cart.ID) = Except.ok rows) →
      (GetCarts parseFloatOk h s c).resp =
        JSON StatusOK (Body.carts (buildCartViews carts rows))) := by
  refine ⟨buildCartViews_eq_map carts rows, ?_, ?_, ?_⟩
  · rw [buildCartViews_eq_map]; simp
  · intro cart hcart hnone
    rw [buildCartViews_eq_map]
    refine List.mem_map.mpr ⟨cart, hcart, ?_⟩
    have hf : (rows.filter fun ci => ci.CartID == cart.ID) = [] := by
      rw [List.filter_eq_nil_iff]
      intro ci hci
      simpa using hnone ci hci
    rw [hf]; rfl
  · intro hq hrows
    unfold GetCarts
    simp only [hq]
    cases carts with
    | nil => simp [buildCartViews]
    | cons cart rest =>
      rcases hrows with hnil | hrows
      · cases hnil
      · simp only [List.map_cons] at hrows
        simp [hrows]

/-- On the sample store with no filter: cart 1 gets its two lines in insertion
order, cart 2, which has no line, gets the empty list. -/
theorem GetCarts_one_view_per_cart_witness :
    (GetCarts digitsOk (memQueries parseDigits) sampleStore (queryContext [])).resp =
      JSON StatusOK
        (Body.carts
          [⟨1, [⟨1, "Milk", 2, true⟩, ⟨2, "Bread", 1, false⟩], 25⟩, ⟨2, [], 0⟩]) :=
  ((GetCarts_one_view_per_cart digitsOk (memQueries parseDigits) sampleStore (queryContext [])
      [⟨1, 25⟩, ⟨2, 0⟩]
      [⟨1, 1, "Milk", 2, false⟩, ⟨1, 2, "Bread", 1, true⟩]).2.2.2
    (by
      simp [memQueries, getCartsParams, Store.totalPrice, Store.totalQuantity, Store.findItem,
        sampleStore, boundHolds, priceFilter, quantityFilter, queryContext, Context.Query,
        Context.DefaultQuery]
      rw [show int32 (Atoi "10").1 = 10 by decide, show int32 (Atoi "0").1 = 0 by decide]
      norm_num)
    (Or.inr (by simp [memQueries, Store.cartRows, Store.findItem, sampleStore]))).trans
    (by simp [buildCartViews_eq_map, lineView])

/-! ## Query parameters -/

/-- C8: a limit that is not an integer reaches storage as 0, not as the default
10, in both listings: `Atoi` returns 0 with the error that the handler drops.
With `limit=abc` the item listing of the sample store is empty, while without
the parameter the limit is 10 and the one live item is listed.  A malformed
offset also reaches storage as 0, which is its default. -/
theorem malformed_limit_reaches_storage_as_zero :
    Atoi "abc" = (0, some NumError.ErrSyntax) ∧
    (∀ parseFloatOk,
      (getItemsParams parseFloatOk (queryContext [("limit", "abc")])).Limit = 0 ∧
      (getCartsParams parseFloatOk (queryContext [("limit", "abc")])).Limit = 0 ∧
      (getItemsParams parseFloatOk (queryContext [])).Limit = 10 ∧
      (getCartsParams parseFloatOk (queryContext [])).Limit = 10 ∧
      (getItemsParams parseFloatOk (queryContext [("offset", "abc")])).Offset = 0 ∧
      (getCartsParams parseFloatOk (queryContext [("offset", "abc")])).Offset = 0) ∧
    (GetItems digitsOk (memQueries parseDigits) sampleStore
        (queryContext [("limit", "abc")])).resp = JSON StatusOK (Body.items []) ∧
    (GetItems digitsOk (memQueries parseDigits) sampleStore (queryContext [])).resp =
      JSON StatusOK (Body.items [⟨1, "Milk", 10, false⟩]) := by
  refine ⟨by decide, ?_, ?_, ?_⟩
  · intro parseFloatOk
    refine ⟨?_, ?_, ?_, ?_, ?_, ?_⟩ <;>
      simp only [getItemsParams, getCartsParams] <;> decide
  · simp [GetItems, getItemsParams, memQueries, queryContext, Context.Query,
      Context.DefaultQuery, priceFilter, boundHolds, sampleStore]
    rw [show int32 (Atoi "abc").1 = 0 by decide]
    simp
  · simp [GetItems, getItemsParams, memQueries, queryContext, Context.Query,
      Context.DefaultQuery, priceFilter, boundHolds, sampleStore, itemToResponse]
    rw [show int32 (Atoi "10").1 = 10 by decide, show int32 (Atoi "0").1 = 0 by decide]
    simp

/-! ## Body validation -/

/-- C9: a create or replace body with a non-empty name and price exactly 0 is
rejected: the tag `required` on the `float64` field fails on the zero value
before `gte=0` is looked at.  `PostItem` answers 400 and creates nothing.
A body with both members is accepted exactly when the name is not empty and the
price is strictly positive. -/
theorem zero_price_is_rejected :
    bindItemRequest (JsonBody.object (some "Milk") (some 0)) =
      Except.error
        "Key: 'ItemRequest.Price' Error:Field validation for 'Price' failed on the 'required' tag" ∧
    (PostItem (memQueries parseDigits) sampleStore (bodyContext [] (some "Milk") (some 0))).resp.status =
      StatusBadRequest ∧
    (PostItem (memQueries parseDigits) sampleStore (bodyContext [] (some "Milk") (some 0))).calls =
      [] ∧
    (∀ name price,
      (∃ req, bindItemRequest (JsonBody.object (some name) (some price)) = Except.ok req) ↔
        name ≠ "" ∧ 0 < price) := by
  refine ⟨by rfl, by rfl, by rfl, ?_⟩
  intro name price
  simp only [bindItemRequest, ItemRequest.validate, requiredString, requiredFloat, gte0,
    Option.getD_some]
  by_cases hn : name = ""
  · subst hn
    by_cases hp : price = 0 <;> by_cases hq : 0 ≤ price <;> simp [hp, hq]
  · by_cases hp : price = 0
    · subst hp
      simp [hn]
    · by_cases hq : 0 ≤ price
      · have hpos : 0 < price := lt_of_le_of_ne hq (Ne.symm hp)
        simp [hn, hp, hq, hpos]
      · have hneg : ¬ 0 < price := fun hh => hq (le_of_lt hh)
        simp [hn, hp, hq, hneg]

/-! ## Optional filters -/

/-- C10: a quantity filter does not carry a supplied value outside `int32`.
`min_quantity=4294967296` parses (`Atoi` accepts it on a 64-bit target) and the
filter is present, but the unchecked `int32(val)` makes it carry 0 and not the
supplied 4294967296, whereas a price filter carries its text unaltered. -/
theorem quantity_filter_does_not_carry_large_value :
    Atoi "4294967296" = (4294967296, none) ∧
    (∀ parseFloatOk,
      (getCartsParams parseFloatOk
          (queryContext [("min_quantity", "4294967296")])).MinQuantity = some 0 ∧
      (getCartsParams parseFloatOk
          (queryContext [("min_quantity", "4294967296")])).MinQuantity ≠ some 4294967296) := by
  refine ⟨by decide, ?_⟩
  intro parseFloatOk
  have hq : (getCartsParams parseFloatOk
      (queryContext [("min_quantity", "4294967296")])).MinQuantity = some 0 := by
    simp only [getCartsParams]
    decide
  exact ⟨hq, by rw [hq]; decide⟩

/-- The lenient handling of the filters: every filter of the two listings is
computed from the text of its own query parameter alone (`priceFilter` for `min_price` and `max_price`,
`quantityFilter` for `min_quantity` and `max_quantity`).  An empty text, or one
the parser rejects (`ParseFloat` for prices, `Atoi` for quantities), gives the
absent filter; a price text that parses gives a present filter carrying that
text; a quantity text that parses gives a present filter, carrying the parsed
value when it lies in the `int32` range.  No filter value makes the request
fail: the first storage call of `GetItems` and of `GetCarts` is the listing
query with these parameters. -/
theorem filters_lenient_and_independent (parseFloatOk : String → Bool) (c : Context) :
    ((getItemsParams parseFloatOk c).MinPrice = priceFilter parseFloatOk (c.Query "min_price") ∧
      (getItemsParams parseFloatOk c).MaxPrice = priceFilter parseFloatOk (c.Query "max_price") ∧
      (getCartsParams parseFloatOk c).MinPrice = priceFilter parseFloatOk (c.Query "min_price") ∧
      (getCartsParams parseFloatOk c).MaxPrice = priceFilter parseFloatOk (c.Query "max_price") ∧
      (getCartsParams parseFloatOk c).MinQuantity = quantityFilter (c.Query "min_quantity") ∧
      (getCartsParams parseFloatOk c).MaxQuantity = quantityFilter (c.Query "max_quantity")) ∧
    (∀ str, str = "" ∨ parseFloatOk str = false → priceFilter parseFloatOk str = none) ∧
    (∀ str, str ≠ "" → parseFloatOk str = true → priceFilter parseFloatOk str = some str) ∧
    (∀ str, str = "" ∨ (Atoi str).2 ≠ none → quantityFilter str = none) ∧
    (∀ str val, str ≠ "" → Atoi str = (val, none) →
      (quantityFilter str).isSome = true ∧ (inInt32 val → quantityFilter str = some val)) ∧
    (∀ (σ : Type) (h : Queries σ) (s : σ),
      (GetItems parseFloatOk h s c).calls = [Call.GetItems (getItemsParams parseFloatOk c)] ∧
      (GetCarts parseFloatOk h s c).calls.head? =
        some (Call.GetAllCartsWithStats (getCartsParams parseFloatOk c))) := by
  refine ⟨⟨rfl, rfl, rfl, rfl, rfl, rfl⟩, ?_, ?_, ?_, ?_, ?_⟩
  · rintro str (hs | hs)
    · subst hs
      simp [priceFilter]
    · simp [priceFilter, hs]
  · intro str hne hok
    simp [priceFilter, hne, hok]
  · rintro str (hs | hs)
    · subst hs
      simp [quantityFilter]
    · unfold quantityFilter
      rcases hA : Atoi str with ⟨val, e⟩
      cases e with
      | none => rw [hA] at hs; simp at hs
      | some err => simp
  · intro str val hne hA
    unfold quantityFilter
    rw [hA]
    refine ⟨by simp [hne], ?_⟩
    intro hval
    simp [hne, int32_of_inInt32 hval]
  · intro σ h s
    constructor
    · unfold GetItems
      simp only
      split <;> rfl
    · unfold GetCarts
      simp only
      split
      · rfl
      · split
        · split <;> rfl
        · rfl

/-- An unreadable price text and an unreadable quantity text give absent
filters, a readable price text is carried as it is, a readable quantity within
`int32` is carried as its value, and the cart listing is queried with exactly
these filters. -/
theorem filters_lenient_and_independent_witness :
    priceFilter digitsOk "cheap" = none ∧
    priceFilter digitsOk "100" = some "100" ∧
    quantityFilter "1.5" = none ∧
    quantityFilter "3" = some 3 ∧
    (GetCarts digitsOk (memQueries parseDigits) sampleStore
        (queryContext [("min_price", "cheap"), ("max_price", "100"),
          ("min_quantity", "1.5"), ("max_quantity", "3")])).calls.head? =
      some (Call.GetAllCartsWithStats
        (getCartsParams digitsOk
          (queryContext [("min_price", "cheap"), ("max_price", "100"),
            ("min_quantity", "1.5"), ("max_quantity", "3")]))) :=
  ⟨(filters_lenient_and_independent digitsOk (queryContext [])).2.1 "cheap"
      (Or.inr (by decide)),
   (filters_lenient_and_independent digitsOk (queryContext [])).2.2.1 "100"
      (by decide) (by decide),
   (filters_lenient_and_independent digitsOk (queryContext [])).2.2.2.1 "1.5"
      (Or.inr (by decide)),
   ((filters_lenient_and_independent digitsOk (queryContext [])).2.2.2.2.1 "3" 3
      (by decide) (by decide)).2 (by decide),
   ((filters_lenient_and_independent digitsOk
      (queryContext [("min_price", "cheap"), ("max_price", "100"),
        ("min_quantity", "1.5"), ("max_quantity", "3")])).2.2.2.2.2
      Store (memQueries parseDigits) sampleStore).2⟩

/-! ## The conversion of parsed integers to `int32` -/

/-- C11: the conversion `int32(x)` of a parsed integer keeps the value exactly
when it lies in the `int32` range and wraps otherwise.  The path value
`4294967297` parses (`Atoi` accepts it on a 64-bit target) and is converted to
1, so on the sample store `GetItemByID` returns item 1, `GetCartByID` reads
cart 1, `PutItem` and `PatchItem` write item 1, `DeleteItem` soft-deletes
item 1 and `AddItemToCart` (cart `4294967297`, item `4294967298`) adds item 2
to cart 1.  The query values `offset=4294967296`, `limit=4294967297`,
`min_quantity=4294967298` and `max_quantity=-4294967295` reach storage as
0, 1, 2 and 1. -/
theorem out_of_range_id_addresses_another_entity :
    Atoi "4294967297" = (4294967297, none) ∧
    int32 4294967297 = 1 ∧
    (∀ n, int32 n = n ↔ inInt32 n) ∧
    (GetItemByID (memQueries parseDigits) sampleStore
        (pathContext [("id", "4294967297")])).calls = [Call.GetItem 1] ∧
    (GetItemByID (memQueries parseDigits) sampleStore
        (pathContext [("id", "4294967297")])).resp =
      JSON StatusOK (Body.item ⟨1, "Milk", 10, false⟩) ∧
    (GetCartByID (memQueries parseDigits) sampleStore
        (pathContext [("id", "4294967297")])).calls =
      [Call.GetCart 1, Call.GetCartItems 1, Call.GetCartTotalPrice 1] ∧
    (PutItem (memQueries parseDigits) sampleStore
        (bodyContext [("id", "4294967297")] (some "Tea") (some 3))).calls =
      [Call.GetItem 1, Call.UpdateItem ⟨1, "Tea", 3⟩] ∧
    (PatchItem (memQueries parseDigits) sampleStore
        (bodyContext [("id", "4294967297")] none (some 3))).calls =
      [Call.PatchItemPrice ⟨1, 3⟩] ∧
    (DeleteItem (memQueries parseDigits) sampleStore
        (pathContext [("id", "4294967297")])).calls = [Call.DeleteItem 1] ∧
    (DeleteItem (memQueries parseDigits) sampleStore
        (pathContext [("id", "4294967297")])).store.items =
      [⟨1, "Milk", 10, true⟩, ⟨2, "Bread", 5, true⟩] ∧
    (AddItemToCart (memQueries parseDigits) sampleStore
        (pathContext [("cart_id", "4294967297"), ("item_id", "4294967298")])).calls =
      [Call.GetCart 1, Call.GetItem 2, Call.AddItemToCart ⟨1, 2⟩, Call.GetCartItems 1,
        Call.GetCartTotalPrice 1] ∧
    (∀ parseFloatOk,
      getCartsParams parseFloatOk
          (queryContext [("offset", "4294967296"), ("limit", "4294967297"),
            ("min_quantity", "4294967298"), ("max_quantity", "-4294967295")]) =
        ⟨1, 0, none, none, some 2, some 1⟩) := by
  refine ⟨by decide, by decide, ?_, by rfl, by rfl, by rfl, by rfl, by rfl, by rfl, by rfl,
    by rfl, ?_⟩
  · intro n
    unfold int32 inInt32
    constructor <;> intro hn <;> omega
  · intro parseFloatOk
    rfl

end ShopApi
